import Mathlib

/-!
Shallow embedding of the blog-authoring scripts `publish_post.py` and
`new_post.py`.

File text is modelled as a list of newline-free lines together with a flag
recording whether the text ends with a final newline; this matches Python's
`str.splitlines` / `"\n".join` round trip used by the code.  Whitespace is
modelled at ASCII granularity (`Char.isWhitespace`), matching the characters
the scripts actually encounter.
-/

namespace Blog

/-- Model of Python `str.startswith`: prefix test on the character list. -/
def startswith (s p : String) : Bool :=
  p.data.isPrefixOf s.data

/-- All characters of a character list are whitespace (Python `\s`). -/
def allWS (cs : List Char) : Bool :=
  cs.all fun c => c.isWhitespace

/-- A whole line consists only of whitespace. -/
def wsOnly (l : String) : Bool :=
  allWS l.data

/-- Model of Python `str.strip`: drop leading and trailing whitespace. -/
def pyStrip (s : String) : String :=
  ⟨((s.data.dropWhile Char.isWhitespace).reverse.dropWhile Char.isWhitespace).reverse⟩

/-- The characters of a line after the 5-character prefix `date:`. -/
def dateTail (l : String) : List Char :=
  l.data.drop 5

/-- A file's text: its newline-free lines plus whether a trailing newline
is present (Python `text.splitlines()` together with `text.endswith("\n")`). -/
structure Text where
  lines : List String
  trailingNewline : Bool
deriving DecidableEq

/-- Model of Python's aware `datetime`: calendar fields plus the UTC offset
in minutes. -/
structure PyDateTime where
  year : Nat
  month : Nat
  day : Nat
  hour : Nat
  minute : Nat
  tzMin : Int
deriving DecidableEq

/-- Zero-pad a natural to two digits (`%m`, `%d`, `%H`, `%M`). -/
def pad2 (n : Nat) : String :=
  if n < 10 then "0" ++ toString n else toString n

/-- Zero-pad a natural to four digits (`%Y`). -/
def pad4 (n : Nat) : String :=
  if n < 10 then "000" ++ toString n
  else if n < 100 then "00" ++ toString n
  else if n < 1000 then "0" ++ toString n
  else toString n

/-- `%z`: the UTC offset as a sign followed by four digits, from an offset in
minutes. -/
def fmtOffset (m : Int) : String :=
  if m < 0 then "-" ++ pad2 ((-m).toNat / 60) ++ pad2 ((-m).toNat % 60)
  else "+" ++ pad2 (m.toNat / 60) ++ pad2 (m.toNat % 60)

/-- `strftime("%Y-%m-%d")`, used for the published file's name prefix. -/
def fmtDate (dt : PyDateTime) : String :=
  pad4 dt.year ++ "-" ++ pad2 dt.month ++ "-" ++ pad2 dt.day

/-- `strftime("%Y-%m-%d %H:%M")`, the format `new_post.py` writes. -/
def fmtDateTimeNoTz (dt : PyDateTime) : String :=
  fmtDate dt ++ " " ++ pad2 dt.hour ++ ":" ++ pad2 dt.minute

/-- `strftime("%Y-%m-%d %H:%M %z")`, the format `update_frontmatter_date`
writes. -/
def fmtDateTimeTz (dt : PyDateTime) : String :=
  fmtDateTimeNoTz dt ++ " " ++ fmtOffset dt.tzMin

/-- After a `date:` line whose remainder is all whitespace, the regex's
greedy `\s*` crosses the newline and keeps consuming: it skips every
following all-whitespace line and then `.*$` consumes the first line holding
a non-whitespace character.  `some rest` returns the lines surviving after
the match; `none` means the run reached the end of the text (consuming a
trailing newline if one was present). -/
def swallowRun : List String → Option (List String)
  | [] => none
  | l :: ls => if wsOnly l then swallowRun ls else some ls

/-- Model of `re.subn(r"^date:\s*.*$", repl, text, count=1, flags=re.MULTILINE)`:
replace the first match by `repl`; `none` models a zero count.  When the
first `date:` line has a whitespace-only remainder the match extends across
following lines (see `swallowRun`); otherwise it replaces exactly that line. -/
def reSubnDate (repl : String) : List String → Bool → Option (List String × Bool)
  | [], _ => none
  | l :: ls, tr =>
    if startswith l "date:" then
      if allWS (dateTail l) then
        match swallowRun ls with
        | some rest => some (repl :: rest, tr)
        | none => some ([repl], false)
      else
        some (repl :: ls, tr)
    else
      (reSubnDate repl ls tr).map fun p => (l :: p.1, p.2)

/-- Index of the first line that is `---` after stripping surrounding
whitespace (the closing front-matter delimiter search in
`_insert_date_field`). -/
def findDelim : List String → Option Nat
  | [] => none
  | l :: ls => if pyStrip l = "---" then some 0 else (findDelim ls).map (· + 1)

/-- Replace the first line beginning with `date:` (the `for`/`break` loop of
`_insert_date_field`); `none` when no such line exists. -/
def replaceFirstDate (repl : String) : List String → Option (List String)
  | [] => none
  | l :: ls =>
    if startswith l "date:" then some (repl :: ls)
    else (replaceFirstDate repl ls).map (l :: ·)

/-- Index of the first line beginning with `title:`. -/
def findTitleIdx : List String → Option Nat
  | [] => none
  | l :: ls =>
    if startswith l "title:" then some 0 else (findTitleIdx ls).map (· + 1)

/-- Model of `_insert_date_field(text, date_str, path)`: parse the
front-matter block, replace the first `date:` line inside it, or insert a
new one after the first `title:` line (else at the start of the block);
errors mirror the two `RuntimeError`s. -/
def insertDateField (dateStr : String) (t : Text) : Except String Text :=
  match t.lines with
  | [] => .error "does not start with front matter"
  | l0 :: rest =>
    if pyStrip l0 = "---" then
      match findDelim rest with
      | none => .error "missing closing front matter delimiter"
      | some c =>
        let fm := rest.take c
        let dateLine := "date: " ++ dateStr
        let fm2 :=
          match replaceFirstDate dateLine fm with
          | some fmR => fmR
          | none =>
            match findTitleIdx fm with
            | some ti => fm.take (ti + 1) ++ dateLine :: fm.drop (ti + 1)
            | none => dateLine :: fm
        .ok ⟨"---" :: fm2 ++ "---" :: rest.drop (c + 1), t.trailingNewline⟩
    else .error "does not start with front matter"

/-- Pure core of `update_frontmatter_date`: try the whole-text regex
substitution first; if it made no replacement, fall back to
`_insert_date_field`. -/
def updateFrontmatterDate (dateStr : String) (t : Text) : Except String Text :=
  match reSubnDate ("date: " ++ dateStr) t.lines t.trailingNewline with
  | some (ls, tr) => .ok ⟨ls, tr⟩
  | none => insertDateField dateStr t

/-- A filesystem: a map from paths to file texts. -/
def FS := String → Option Text

/-- Write (create or overwrite) a file. -/
def fsWrite (fs : FS) (p : String) (t : Text) : FS :=
  fun q => if q = p then some t else fs q

/-- `update_frontmatter_date(path, new_datetime)` at the filesystem level:
read the file, transform, and write back; on an exception nothing is
written. -/
def updateFrontmatterDateFS (p : String) (dateStr : String) (fs : FS) :
    FS × Except String Unit :=
  match fs p with
  | none => (fs, .error "no such file")
  | some t =>
    match updateFrontmatterDate dateStr t with
    | .ok t2 => (fsWrite fs p t2, .ok ())
    | .error e => (fs, .error e)

/-- POSIX `rename(2)` as invoked by `Path.rename`: the source disappears and
the destination receives its content, silently replacing any existing file
at the destination. -/
def fsRename (src dst : String) (fs : FS) : FS × Except String Unit :=
  match fs src with
  | none => (fs, .error "no such file")
  | some t =>
    ((fun q => if q = dst then some t else if q = src then none else fs q), .ok ())

/-- `promote_draft(draft_path)` for a draft `_drafts/<slug>.md` (so
`stem = slug`, `suffix = ".md"`): update the front-matter date in place,
then rename into `_posts/` with a date prefix.  `now` stands for the single
`datetime.now().astimezone()` call; `renameOk` models whether the operating
system permits the rename (when it refuses, the raised error propagates with
the date update already written). -/
def promoteDraft (now : PyDateTime) (slug : String) (renameOk : Bool) (fs : FS) :
    FS × Except String String :=
  let draftPath := "_drafts/" ++ slug ++ ".md"
  match updateFrontmatterDateFS draftPath (fmtDateTimeTz now) fs with
  | (fs1, .error e) => (fs1, .error e)
  | (fs1, .ok _) =>
    let newPath := "_posts/" ++ fmtDate now ++ "-" ++ slug ++ ".md"
    if renameOk then
      match fsRename draftPath newPath fs1 with
      | (fs2, .ok _) => (fs2, .ok newPath)
      | (fs2, .error e) => (fs2, .error e)
    else (fs1, .error "rename not permitted")

/-- Result of `choose_draft`: Python returns a `Path` on a choice and `None`
both on user cancellation and on an empty draft list (one shared value), or
lets a `ValueError` escape when the external tool's line is not among the
candidates. -/
inductive SelResult where
  | err : SelResult
  | cancel : SelResult
  | chosen : String → SelResult
deriving DecidableEq

/-- Environment of one `choose_draft` call: whether `fzf` is on `PATH`, the
outcome of running it (`none` models an `OSError`, otherwise return code and
standard output), and the lines available on standard input (exhaustion
models `EOFError`). -/
structure ChooseEnv where
  fzfPresent : Bool
  fzfOutcome : Option (Int × String)
  stdin : List String
deriving DecidableEq

/-- Observable outcome of `choose_draft`: its return value plus whether the
external tool was invoked and whether the numbered prompt was printed. -/
structure ChooseOut where
  result : SelResult
  fzfInvoked : Bool
  promptShown : Bool
deriving DecidableEq

/-- Model of Python `list.index`: position of the first equal element. -/
def indexOfFirst (x : String) : List String → Option Nat
  | [] => none
  | y :: ys => if y = x then some 0 else (indexOfFirst x ys).map (· + 1)

/-- Characters that Python `str.isdigit` counts as digits beyond the decimal
digits `0`-`9`: compatibility digits, which `int()` rejects with a
`ValueError`.  The three superscript digits are carried as concrete
representatives of this class.  (Decimal digits of non-Latin scripts, which
`int()` does accept and which therefore behave like `0`-`9`, are not
carried.) -/
def isSuperDigit (c : Char) : Bool :=
  c = '¹' || c = '²' || c = '³'

/-- Python `str.isdigit`: true on a non-empty string of digit characters,
including the compatibility digits that `int()` later rejects (e.g.
`"²".isdigit()` is true). -/
def pyIsDigit (s : String) : Bool :=
  !s.data.isEmpty && s.data.all fun c => c.isDigit || isSuperDigit c

/-- Python `int` on an `isdigit`-true string: the decimal value when every
character is a decimal digit, `none` — a raised `ValueError` — otherwise
(e.g. `int("²")` raises even though `"²".isdigit()` is true). -/
def pyIntOfDigits (s : String) : Option Nat :=
  if s.data.all Char.isDigit then
    some (s.data.foldl (fun a c => 10 * a + (c.toNat - 48)) 0)
  else none

/-- The numbered-list fallback loop of `choose_draft`: read a line, blank
cancels, a digits-only 1-based index in range selects, an out-of-range or
non-digit entry re-prompts; end of input (`EOFError`) cancels.  When the
entry passes `isdigit` but `int()` rejects it (a compatibility digit such as
`²`), the `ValueError` from `int(choice)` escapes uncaught (`.err`). -/
def promptLoop (drafts : List String) : List String → SelResult
  | [] => .cancel
  | c :: restIn =>
    if pyStrip c = "" then .cancel
    else if pyIsDigit (pyStrip c) then
      match pyIntOfDigits (pyStrip c) with
      | none => .err
      | some n =>
        if 1 ≤ n ∧ n - 1 < drafts.length then .chosen (drafts.getD (n - 1) "")
        else promptLoop drafts restIn
    else promptLoop drafts restIn

/-- Model of `choose_draft(drafts)`.  Paths are taken `ROOT`-relative, so the
displayed `rel_paths` coincide with the draft paths themselves.  An empty
list returns immediately; otherwise `fzf` is tried when present (exit code 0
with a non-empty stripped line selects via `list.index`, an unmatched line
raises `ValueError`, a blank selection cancels), and every other case falls
through to the numbered prompt. -/
def chooseDraft (drafts : List String) (env : ChooseEnv) : ChooseOut :=
  if drafts = [] then ⟨.cancel, false, false⟩
  else if env.fzfPresent then
    match env.fzfOutcome with
    | some (rc, out) =>
      if rc = 0 then
        if pyStrip out = "" then ⟨.cancel, true, false⟩
        else
          match indexOfFirst (pyStrip out) drafts with
          | some i => ⟨.chosen (drafts.getD i ""), true, false⟩
          | none => ⟨.err, true, false⟩
      else ⟨promptLoop drafts env.stdin, true, true⟩
    | none => ⟨promptLoop drafts env.stdin, true, true⟩
  else ⟨promptLoop drafts env.stdin, false, true⟩

/-- Slug derivation in `new_post.py`: lowercase, spaces to hyphens, strip
apostrophes and backticks. -/
def slugify (title : String) : String :=
  (((title.toLower).replace " " "-").replace "'" "").replace "`" ""

/-- The stub `new_post.py` writes, as `Text`: the f-string
`---\ntitle: "{title}"\ndate: {datetime_str}\n---\n\n` split into lines
(titles come from `input()` and so contain no newline). -/
def newPostText (title : String) (now : PyDateTime) : Text :=
  ⟨["---", "title: \"" ++ title ++ "\"", "date: " ++ fmtDateTimeNoTz now,
    "---", ""], true⟩

/-- The path `new_post.py` writes to. -/
def newPostPath (title : String) (now : PyDateTime) : String :=
  "_posts/" ++ fmtDate now ++ "-" ++ slugify title ++ ".md"

/-- Lines of a successful rewrite, `[]` on an error (projection used to state
concrete counterexamples without equality on `Except`). -/
def resultLines : Except String Text → List String
  | .ok t => t.lines
  | .error _ => []

/-- Whether a rewrite succeeded. -/
def isOkText : Except String Text → Bool
  | .ok _ => true
  | .error _ => false

/-- Whether a filesystem-level operation succeeded. -/
def isOkUnit : Except String Unit → Bool
  | .ok _ => true
  | .error _ => false

/-- Whether a promotion succeeded. -/
def isOkPath : Except String String → Bool
  | .ok _ => true
  | .error _ => false

/-! ### Helper lemmas about the regex substitution model -/

theorem data_repl (s : String) :
    ("date: " ++ s).data = 'd' :: 'a' :: 't' :: 'e' :: ':' :: ' ' :: s.data := by
  rw [String.data_append]
  rfl

theorem startswith_date_repl (s : String) : startswith ("date: " ++ s) "date:" = true := by
  simp [startswith, data_repl, List.isPrefixOf]

theorem dateTail_repl (s : String) : dateTail ("date: " ++ s) = ' ' :: s.data := by
  simp [dateTail, data_repl]

theorem mem_data_append_left {c : Char} (a b : String) (h : c ∈ a.data) :
    c ∈ (a ++ b).data := by
  rw [String.data_append]
  exact List.mem_append_left _ h

theorem mem_data_append_right {c : Char} (a b : String) (h : c ∈ b.data) :
    c ∈ (a ++ b).data := by
  rw [String.data_append]
  exact List.mem_append_right _ h

theorem dash_mem_fmtDate (dt : PyDateTime) : '-' ∈ (fmtDate dt).data := by
  unfold fmtDate
  apply mem_data_append_left
  apply mem_data_append_left
  apply mem_data_append_left
  apply mem_data_append_right
  decide

theorem dash_mem_fmtDateTimeTz (dt : PyDateTime) : '-' ∈ (fmtDateTimeTz dt).data := by
  unfold fmtDateTimeTz fmtDateTimeNoTz
  apply mem_data_append_left
  apply mem_data_append_left
  apply mem_data_append_left
  apply mem_data_append_left
  apply mem_data_append_left
  apply mem_data_append_left
  exact dash_mem_fmtDate dt

theorem allWS_eq_false_of_mem {cs : List Char} {c : Char} (hc : c ∈ cs)
    (hw : c.isWhitespace = false) : allWS cs = false := by
  rcases h : allWS cs with _ | _
  · rfl
  · exfalso
    have := (List.all_eq_true.mp h) c hc
    simp [hw] at this

theorem allWS_dateTail_fmt (dt : PyDateTime) :
    allWS (dateTail ("date: " ++ fmtDateTimeTz dt)) = false := by
  rw [dateTail_repl]
  exact allWS_eq_false_of_mem (List.mem_cons_of_mem _ (dash_mem_fmtDateTimeTz dt))
    (by decide)

theorem reSubnDate_skip (repl : String) (pre ls : List String) (tr : Bool)
    (h : ∀ l ∈ pre, startswith l "date:" = false) :
    reSubnDate repl (pre ++ ls) tr =
      (reSubnDate repl ls tr).map fun p => (pre ++ p.1, p.2) := by
  induction pre with
  | nil => simp
  | cons a pre ih =>
    have ha : startswith a "date:" = false := h a (by simp)
    have ih' := ih fun l hl => h l (by simp [hl])
    simp only [List.cons_append, reSubnDate, ha, Bool.false_eq_true, if_false,
      List.append_eq]
    rw [ih']
    cases reSubnDate repl ls tr <;> simp

theorem reSubnDate_hit (repl d : String) (ls : List String) (tr : Bool)
    (hd : startswith d "date:" = true) (hws : allWS (dateTail d) = false) :
    reSubnDate repl (d :: ls) tr = some (repl :: ls, tr) := by
  simp [reSubnDate, hd, hws]

theorem reSubnDate_none (repl : String) (ls : List String) (tr : Bool)
    (h : ∀ l ∈ ls, startswith l "date:" = false) :
    reSubnDate repl ls tr = none := by
  induction ls with
  | nil => rfl
  | cons a ls ih =>
    have ha : startswith a "date:" = false := h a (by simp)
    simp [reSubnDate, ha, ih fun l hl => h l (by simp [hl])]

theorem nodate_of_reSubnDate_none (repl : String) (ls : List String) (tr : Bool)
    (h : reSubnDate repl ls tr = none) :
    ∀ l ∈ ls, startswith l "date:" = false := by
  induction ls with
  | nil => simp
  | cons a ls ih =>
    intro l hl
    by_cases ha : startswith a "date:" = true
    · exfalso
      simp only [reSubnDate, ha, if_true] at h
      rcases hsw : allWS (dateTail a) with _ | _ <;> simp [hsw] at h
      cases hr : swallowRun ls <;> simp [hr] at h
    · rcases List.mem_cons.mp hl with rfl | hl'
      · simpa using ha
      · refine ih ?_ l hl'
        simp only [reSubnDate, ha, Bool.false_eq_true, if_false] at h
        cases hr : reSubnDate repl ls tr <;> simp [hr] at h ⊢

theorem reSubnDate_some_shape (repl : String) (ls ls' : List String) (tr tr' : Bool)
    (h : reSubnDate repl ls tr = some (ls', tr')) :
    ∃ pre suf, (∀ l ∈ pre, startswith l "date:" = false) ∧
      ls' = pre ++ repl :: suf := by
  induction ls generalizing ls' tr' with
  | nil => simp [reSubnDate] at h
  | cons a ls ih =>
    by_cases ha : startswith a "date:" = true
    · simp only [reSubnDate, ha, if_true] at h
      rcases hsw : allWS (dateTail a) with _ | _
      · simp only [hsw, Bool.false_eq_true, if_false, Option.some.injEq,
          Prod.mk.injEq] at h
        exact ⟨[], ls, by simp, by simp [← h.1]⟩
      · simp only [hsw, if_true] at h
        cases hr : swallowRun ls with
        | some rest =>
          simp only [hr, Option.some.injEq, Prod.mk.injEq] at h
          exact ⟨[], rest, by simp, by simp [← h.1]⟩
        | none =>
          simp only [hr, Option.some.injEq, Prod.mk.injEq] at h
          exact ⟨[], [], by simp, by simp [← h.1]⟩
    · simp only [reSubnDate, ha, Bool.false_eq_true, if_false] at h
      cases hr : reSubnDate repl ls tr with
      | none => simp [hr] at h
      | some p =>
        simp only [hr, Option.map_some', Option.some.injEq, Prod.mk.injEq] at h
        obtain ⟨pre, suf, hpre, hshape⟩ := ih p.1 p.2 (by simp [hr])
        refine ⟨a :: pre, suf, ?_, ?_⟩
        · intro l hl
          rcases List.mem_cons.mp hl with rfl | hl'
          · simpa using ha
          · exact hpre l hl'
        · simp [← h.1, hshape]

theorem repl_mem_of_reSubnDate_some (repl : String) (ls ls' : List String)
    (tr tr' : Bool) (h : reSubnDate repl ls tr = some (ls', tr')) :
    repl ∈ ls' := by
  obtain ⟨pre, suf, _, hshape⟩ := reSubnDate_some_shape repl ls ls' tr tr' h
  simp [hshape]

/-! ### Helper lemmas about the insertion fallback -/

theorem findDelim_append (pre rest : List String)
    (h : ∀ l ∈ pre, pyStrip l ≠ "---") :
    findDelim (pre ++ "---" :: rest) = some pre.length := by
  have h0 : pyStrip "---" = "---" := by decide
  induction pre with
  | nil => simp [findDelim, h0]
  | cons a pre ih =>
    have ha : pyStrip a ≠ "---" := h a (by simp)
    have ih' := ih fun l hl => h l (by simp [hl])
    simp [findDelim, ha, ih']

theorem replaceFirstDate_none (repl : String) (ls : List String)
    (h : ∀ l ∈ ls, startswith l "date:" = false) :
    replaceFirstDate repl ls = none := by
  induction ls with
  | nil => rfl
  | cons a ls ih =>
    have ha := h a (by simp)
    simp [replaceFirstDate, ha, ih fun l hl => h l (by simp [hl])]

theorem repl_mem_of_replaceFirstDate_some (repl : String) (ls ls' : List String)
    (h : replaceFirstDate repl ls = some ls') : repl ∈ ls' := by
  induction ls generalizing ls' with
  | nil => simp [replaceFirstDate] at h
  | cons a ls ih =>
    by_cases ha : startswith a "date:" = true
    · simp only [replaceFirstDate, ha, if_true, Option.some.injEq] at h
      simp [← h]
    · simp only [replaceFirstDate, ha, Bool.false_eq_true, if_false] at h
      cases hr : replaceFirstDate repl ls with
      | none => simp [hr] at h
      | some r =>
        simp only [hr, Option.map_some', Option.some.injEq] at h
        exact h ▸ List.mem_cons_of_mem _ (ih r hr)

theorem findTitleIdx_append (pre : List String) (ttl : String) (post : List String)
    (hpre : ∀ l ∈ pre, startswith l "title:" = false)
    (httl : startswith ttl "title:" = true) :
    findTitleIdx (pre ++ ttl :: post) = some pre.length := by
  induction pre with
  | nil => simp [findTitleIdx, httl]
  | cons a pre ih =>
    have ha := hpre a (by simp)
    have ih' := ih fun l hl => hpre l (by simp [hl])
    simp [findTitleIdx, ha, ih']

theorem drop_middle (fm body : List String) :
    (fm ++ "---" :: body).drop (fm.length + 1) = body := by
  have h1 : fm ++ "---" :: body = (fm ++ ["---"]) ++ body := by simp
  have h2 : fm.length + 1 = (fm ++ ["---"]).length := by simp
  rw [h1, h2, List.drop_left]

theorem insertDateField_eq (dateStr : String) (fm body : List String) (tr : Bool)
    (hfm : ∀ l ∈ fm, pyStrip l ≠ "---") :
    insertDateField dateStr ⟨"---" :: fm ++ "---" :: body, tr⟩ =
      .ok ⟨"---" ::
        (match replaceFirstDate ("date: " ++ dateStr) fm with
         | some fmR => fmR
         | none =>
           match findTitleIdx fm with
           | some ti => fm.take (ti + 1) ++ ("date: " ++ dateStr) :: fm.drop (ti + 1)
           | none => ("date: " ++ dateStr) :: fm) ++ "---" :: body, tr⟩ := by
  have h0 : pyStrip "---" = "---" := by decide
  have hd := findDelim_append fm body hfm
  simp [insertDateField, List.append_eq, h0, hd, List.take_left, drop_middle]

theorem dateLine_mem_insertDateField (dateStr : String) (t u : Text)
    (h : insertDateField dateStr t = .ok u) : ("date: " ++ dateStr) ∈ u.lines := by
  unfold insertDateField at h
  cases hls : t.lines with
  | nil => simp [hls] at h
  | cons l0 rest =>
    simp only [hls] at h
    by_cases h0 : pyStrip l0 = "---"
    · simp only [h0, if_true] at h
      cases hd : findDelim rest with
      | none => simp [hd] at h
      | some c =>
        simp only [hd] at h
        cases hr : replaceFirstDate ("date: " ++ dateStr) (rest.take c) with
        | some fmR =>
          simp only [hr, Except.ok.injEq] at h
          have hm := repl_mem_of_replaceFirstDate_some _ _ _ hr
          rw [← h]
          simp [hm]
        | none =>
          simp only [hr] at h
          cases ht : findTitleIdx (rest.take c) with
          | some ti =>
            simp only [ht, Except.ok.injEq] at h
            rw [← h]
            simp
          | none =>
            simp only [ht, Except.ok.injEq] at h
            rw [← h]
            simp
    · simp [h0] at h

theorem dateLine_mem_update (dateStr : String) (t u : Text)
    (h : updateFrontmatterDate dateStr t = .ok u) :
    ("date: " ++ dateStr) ∈ u.lines := by
  unfold updateFrontmatterDate at h
  cases hr : reSubnDate ("date: " ++ dateStr) t.lines t.trailingNewline with
  | some p =>
    obtain ⟨ls', tr'⟩ := p
    simp only [hr, Except.ok.injEq] at h
    rw [← h]
    exact repl_mem_of_reSubnDate_some _ _ _ _ _ hr
  | none =>
    simp only [hr] at h
    exact dateLine_mem_insertDateField _ _ _ h

/-! ### Helper lemmas about selection -/

theorem getD_mem (l : List String) (i : Nat) (d : String) (h : i < l.length) :
    l.getD i d ∈ l := by
  induction l generalizing i with
  | nil => simp at h
  | cons a l ih =>
    cases i with
    | zero => simp
    | succ j =>
      simp only [List.getD_cons_succ]
      exact List.mem_cons_of_mem _ (ih j (by simpa using h))

theorem indexOfFirst_getD (x : String) (l : List String) (i : Nat) (d : String)
    (h : indexOfFirst x l = some i) : i < l.length ∧ l.getD i d = x := by
  induction l generalizing i with
  | nil => simp [indexOfFirst] at h
  | cons a l ih =>
    by_cases ha : a = x
    · simp only [indexOfFirst, ha, if_true, Option.some.injEq] at h
      subst h
      simp [ha]
    · simp only [indexOfFirst, ha, if_false] at h
      cases hr : indexOfFirst x l with
      | none => simp [hr] at h
      | some j =>
        simp only [hr, Option.map_some', Option.some.injEq] at h
        obtain ⟨hj1, hj2⟩ := ih j hr
        subst h
        exact ⟨by simpa using hj1, by simpa using hj2⟩

theorem indexOfFirst_of_mem (x : String) (l : List String) (h : x ∈ l) :
    ∃ i, indexOfFirst x l = some i := by
  induction l with
  | nil => simp at h
  | cons a l ih =>
    by_cases ha : a = x
    · exact ⟨0, by simp [indexOfFirst, ha]⟩
    · rcases List.mem_cons.mp h with rfl | h'
      · exact absurd rfl ha
      · obtain ⟨j, hj⟩ := ih h'
        exact ⟨j + 1, by simp [indexOfFirst, ha, hj]⟩

theorem promptLoop_cases (drafts : List String) (ins : List String)
    (hins : ∀ c ∈ ins, pyIsDigit (pyStrip c) = true →
      (pyStrip c).data.all Char.isDigit = true) :
    promptLoop drafts ins = .cancel ∨
      ∃ d ∈ drafts, promptLoop drafts ins = .chosen d := by
  induction ins with
  | nil => exact Or.inl rfl
  | cons c rest ih =>
    have ih' := ih fun x hx => hins x (by simp [hx])
    by_cases h1 : pyStrip c = ""
    · exact Or.inl (by simp [promptLoop, h1])
    · by_cases h2 : pyIsDigit (pyStrip c) = true
      · cases hint : pyIntOfDigits (pyStrip c) with
        | none =>
          have hall := hins c (by simp) h2
          simp [pyIntOfDigits, hall] at hint
        | some n =>
          by_cases h3 : 1 ≤ n ∧ n - 1 < drafts.length
          · refine Or.inr ⟨drafts.getD (n - 1) "", getD_mem _ _ _ h3.2, ?_⟩
            simp [promptLoop, h1, h2, hint, h3]
          · have he : promptLoop drafts (c :: rest) = promptLoop drafts rest := by
              simp [promptLoop, h1, h2, hint, h3]
            rw [he]
            exact ih'
      · have he : promptLoop drafts (c :: rest) = promptLoop drafts rest := by
          simp [promptLoop, h1, h2]
        rw [he]
        exact ih'

theorem exists_first_split (p : String → Bool) (fm : List String)
    (h : ∃ l ∈ fm, p l = true) :
    ∃ pre d post, fm = pre ++ d :: post ∧ p d = true ∧
      ∀ x ∈ pre, p x = false := by
  induction fm with
  | nil => simp at h
  | cons a fm ih =>
    by_cases ha : p a = true
    · exact ⟨[], a, fm, rfl, ha, by simp⟩
    · have h' : ∃ l ∈ fm, p l = true := by
        obtain ⟨l, hl, hp⟩ := h
        rcases List.mem_cons.mp hl with rfl | hl'
        · exact absurd hp ha
        · exact ⟨l, hl', hp⟩
      obtain ⟨pre, d, post, h1, h2, h3⟩ := ih h'
      refine ⟨a :: pre, d, post, by simp [h1], h2, ?_⟩
      intro x hx
      rcases List.mem_cons.mp hx with rfl | hx'
      · simpa using ha
      · exact h3 x hx'

theorem reSubnDate_at (s : String) (pre : List String) (d : String)
    (suffix : List String) (tr : Bool)
    (hpre : ∀ l ∈ "---" :: pre, startswith l "date:" = false)
    (hd : startswith d "date:" = true)
    (hws : allWS (dateTail d) = false) :
    reSubnDate ("date: " ++ s) (("---" :: pre) ++ d :: suffix) tr =
      some (("---" :: pre) ++ ("date: " ++ s) :: suffix, tr) := by
  rw [reSubnDate_skip _ _ _ _ hpre, reSubnDate_hit _ _ _ _ hd hws]
  rfl

/-! ### Claim C4 -/

/-- C4 (counterexample): the text `---` / `date:` / `title: x` / `---` /
`body` is well formed and its front-matter block contains a line beginning
with `date:`, yet the rewrite is not "identical except that line": the
regex's greedy `\s*` crosses the newline after the whitespace-valued `date:`
line, so the following `title: x` line is swallowed and the output has four
lines instead of five. -/
theorem c4_counterexample :
    isOkText (updateFrontmatterDate "2024-03-01 09:00 +0000"
      ⟨["---", "date:", "title: x", "---", "body"], true⟩) = true ∧
    (resultLines (updateFrontmatterDate "2024-03-01 09:00 +0000"
      ⟨["---", "date:", "title: x", "---", "body"], true⟩)).length ≠ 5 := by
  decide

/-- C4 (amended): for every well-formed text whose front-matter block
contains a `date:` line, provided the first such line has a non-whitespace
character after the `date:` prefix, rewriting with timestamp `T` yields text
identical to the original except that this line is fully replaced by
`date: <T formatted>` (whatever followed `date:` is discarded); later
`date:` lines are untouched. -/
theorem c4_amended (s : String) (pre post body : List String) (d : String)
    (tr : Bool)
    (hpre : ∀ l ∈ pre, startswith l "date:" = false)
    (hpre2 : ∀ l ∈ pre, l ≠ "---")
    (hd : startswith d "date:" = true)
    (hws : allWS (dateTail d) = false) :
    updateFrontmatterDate s ⟨"---" :: (pre ++ d :: post) ++ "---" :: body, tr⟩ =
      .ok ⟨"---" :: (pre ++ ("date: " ++ s) :: post) ++ "---" :: body, tr⟩ := by
  have hpre0 : ∀ l ∈ "---" :: pre, startswith l "date:" = false := by
    intro l hl
    rcases List.mem_cons.mp hl with rfl | hl'
    · decide
    · exact hpre l hl'
  have h2 : "---" :: (pre ++ d :: post) ++ "---" :: body
      = ("---" :: pre) ++ d :: (post ++ "---" :: body) := by simp
  have h1 := reSubnDate_at s pre d (post ++ "---" :: body) tr hpre0 hd hws
  unfold updateFrontmatterDate
  simp only [h2, h1]
  simp

/-- C4 (witness): the amended theorem applied to the concrete well-formed
text `---` / `title: "A"` / `date: old` / `---` / `body`. -/
theorem c4_witness :
    ((∀ l ∈ ["title: \"A\""], startswith l "date:" = false) ∧
     (∀ l ∈ ["title: \"A\""], l ≠ "---") ∧
     startswith "date: old" "date:" = true ∧
     allWS (dateTail "date: old") = false) ∧
    updateFrontmatterDate "2024-03-01 09:00 +0000"
      ⟨"---" :: (["title: \"A\""] ++ "date: old" :: []) ++ "---" :: ["body"],
        true⟩ =
      .ok ⟨"---" :: (["title: \"A\""] ++
          ("date: " ++ "2024-03-01 09:00 +0000") :: []) ++ "---" :: ["body"],
        true⟩ :=
  ⟨⟨by decide, by decide, by decide, by decide⟩,
    c4_amended "2024-03-01 09:00 +0000" ["title: \"A\""] [] ["body"]
      "date: old" true (by decide) (by decide) (by decide) (by decide)⟩

/-! ### Claim C1 -/

/-- C1 (counterexample): the text `---` / `title: x` / `---` / `date: note`
has `---` as its first line and a later closing `---` line, but rewriting
does not leave the body unchanged: the front-matter block has no `date:`
line, so the whole-text regex rewrites the body line `date: note` instead
(line index 3, after the closing delimiter, changes). -/
theorem c1_counterexample :
    isOkText (updateFrontmatterDate "2024-03-01 09:00 +0000"
      ⟨["---", "title: x", "---", "date: note"], true⟩) = true ∧
    (resultLines (updateFrontmatterDate "2024-03-01 09:00 +0000"
      ⟨["---", "title: x", "---", "date: note"], true⟩)).getD 3 ""
      ≠ "date: note" := by
  decide

/-- C1 (amended): for every text whose first line is `---` with a later
closing `---` line, provided the block contains no whitespace-padded
delimiter line and no whitespace-valued `date:` line, and provided the body
only contains `date:` lines when the block also has one, rewriting changes
at most one line inside the front-matter block (replaced or inserted) and
leaves every line after the closing delimiter unchanged. -/
theorem c1_amended (s : String) (fm body : List String) (tr : Bool)
    (hclose : ∀ l ∈ fm, pyStrip l ≠ "---")
    (hdate : (∃ l ∈ fm, startswith l "date:" = true) ∨
      (∀ l ∈ body, startswith l "date:" = false))
    (hws : ∀ l ∈ fm, startswith l "date:" = true → allWS (dateTail l) = false) :
    ∃ fm2, updateFrontmatterDate s ⟨"---" :: fm ++ "---" :: body, tr⟩ =
        .ok ⟨"---" :: fm2 ++ "---" :: body, tr⟩ ∧
      ((∃ pre l post, fm = pre ++ l :: post ∧
          fm2 = pre ++ ("date: " ++ s) :: post) ∨
       (∃ pre post, fm = pre ++ post ∧
          fm2 = pre ++ ("date: " ++ s) :: post)) := by
  by_cases hfm : ∃ l ∈ fm, startswith l "date:" = true
  · obtain ⟨pre, d, post, hsplit, hd, hprefree⟩ :=
      exists_first_split (fun l => startswith l "date:") fm hfm
    have hpre0 : ∀ l ∈ "---" :: pre, startswith l "date:" = false := by
      intro l hl
      rcases List.mem_cons.mp hl with rfl | hl'
      · decide
      · exact hprefree l hl'
    have hwsd : allWS (dateTail d) = false :=
      hws d (by rw [hsplit]; simp) hd
    have h2 : "---" :: fm ++ "---" :: body
        = ("---" :: pre) ++ d :: (post ++ "---" :: body) := by simp [hsplit]
    have h1 := reSubnDate_at s pre d (post ++ "---" :: body) tr hpre0 hd hwsd
    refine ⟨pre ++ ("date: " ++ s) :: post, ?_,
      Or.inl ⟨pre, d, post, hsplit, rfl⟩⟩
    unfold updateFrontmatterDate
    simp only [h2, h1]
    simp
  · have hfmfree : ∀ l ∈ fm, startswith l "date:" = false := by
      intro l hl
      by_contra hc
      exact hfm ⟨l, hl, by simpa using hc⟩
    have hbodyfree : ∀ l ∈ body, startswith l "date:" = false := by
      rcases hdate with hdate | hdate
      · exact absurd hdate hfm
      · exact hdate
    have hall : ∀ l ∈ "---" :: fm ++ "---" :: body,
        startswith l "date:" = false := by
      intro l hl
      rcases List.mem_cons.mp hl with rfl | hl'
      · decide
      rcases List.mem_append.mp hl' with hl2 | hl2
      · exact hfmfree l hl2
      rcases List.mem_cons.mp hl2 with rfl | hl3
      · decide
      · exact hbodyfree l hl3
    have hnone := reSubnDate_none ("date: " ++ s) _ tr hall
    have hins := insertDateField_eq s fm body tr hclose
    have hrep := replaceFirstDate_none ("date: " ++ s) fm hfmfree
    cases hti : findTitleIdx fm with
    | some ti =>
      refine ⟨fm.take (ti + 1) ++ ("date: " ++ s) :: fm.drop (ti + 1), ?_,
        Or.inr ⟨fm.take (ti + 1), fm.drop (ti + 1),
          (List.take_append_drop _ _).symm, rfl⟩⟩
      unfold updateFrontmatterDate
      simp only [hnone, hins, hrep, hti]
    | none =>
      refine ⟨("date: " ++ s) :: fm, ?_, Or.inr ⟨[], fm, rfl, rfl⟩⟩
      unfold updateFrontmatterDate
      simp only [hnone, hins, hrep, hti]

/-- C1 (witness): the amended theorem applied to the concrete text `---` /
`title: x` / `date: old` / `---` / `body text`. -/
theorem c1_witness :
    ((∀ l ∈ ["title: x", "date: old"], pyStrip l ≠ "---") ∧
     ((∃ l ∈ ["title: x", "date: old"], startswith l "date:" = true) ∨
       (∀ l ∈ ["body text"], startswith l "date:" = false)) ∧
     (∀ l ∈ ["title: x", "date: old"], startswith l "date:" = true →
       allWS (dateTail l) = false)) ∧
    (∃ fm2, updateFrontmatterDate "2024-03-01 09:00 +0000"
        ⟨"---" :: ["title: x", "date: old"] ++ "---" :: ["body text"], true⟩ =
        .ok ⟨"---" :: fm2 ++ "---" :: ["body text"], true⟩ ∧
      ((∃ pre l post, ["title: x", "date: old"] = pre ++ l :: post ∧
          fm2 = pre ++ ("date: " ++ "2024-03-01 09:00 +0000") :: post) ∨
       (∃ pre post, ["title: x", "date: old"] = pre ++ post ∧
          fm2 = pre ++ ("date: " ++ "2024-03-01 09:00 +0000") :: post))) :=
  ⟨⟨by decide, by decide, by decide⟩,
    c1_amended "2024-03-01 09:00 +0000" ["title: x", "date: old"]
      ["body text"] true (by decide) (by decide) (by decide)⟩

theorem drafts_ne_posts (a b : String) :
    ("_drafts/" ++ a) ≠ ("_posts/" ++ b) := by
  intro h
  have h2 := congrArg String.data h
  rw [String.data_append, String.data_append] at h2
  have h3 : (['_', 'd', 'r', 'a', 'f', 't', 's', '/'] ++ a.data : List Char)
      = ['_', 'p', 'o', 's', 't', 's', '/'] ++ b.data := h2
  simp at h3

theorem draftPath_ne_newPath (slug d : String) :
    ("_drafts/" ++ slug ++ ".md")
      ≠ ("_posts/" ++ d ++ "-" ++ slug ++ ".md") := by
  intro h
  apply drafts_ne_posts (slug ++ ".md") (d ++ "-" ++ slug ++ ".md")
  simpa [String.append_assoc] using h

/-! ### Claim C3 -/

/-- C3 (counterexample): the text `---` / `title: x` / `---` / (blank) /
`date: note` is well formed, its front-matter block has no `date:` line and
has a `title:` line, yet rewriting does not insert `date: <T>` after the
title line: the whole-text regex instead rewrites the body line
`date: note`, so the output differs from the insertion the claim
describes. -/
theorem c3_counterexample :
    isOkText (updateFrontmatterDate "2024-03-01 09:00 +0000"
      ⟨["---", "title: x", "---", "", "date: note"], true⟩) = true ∧
    resultLines (updateFrontmatterDate "2024-03-01 09:00 +0000"
      ⟨["---", "title: x", "---", "", "date: note"], true⟩)
      ≠ ["---", "title: x", "date: 2024-03-01 09:00 +0000", "---", "",
         "date: note"] := by
  decide

/-- C3 (amended): for every well-formed text whose front-matter block
contains no `date:` line but contains a `title:` line, provided additionally
that no body line begins with `date:` and the block has no whitespace-padded
delimiter line, rewriting with timestamp `T` inserts the single line
`date: <T formatted>` immediately after the first `title:` line and leaves
all other lines present and in their original order. -/
theorem c3_amended (s : String) (pre : List String) (ttl : String)
    (post body : List String) (tr : Bool)
    (hnodate : ∀ l ∈ pre ++ ttl :: post, startswith l "date:" = false)
    (hbody : ∀ l ∈ body, startswith l "date:" = false)
    (hclose : ∀ l ∈ pre ++ ttl :: post, pyStrip l ≠ "---")
    (hpre : ∀ l ∈ pre, startswith l "title:" = false)
    (httl : startswith ttl "title:" = true) :
    updateFrontmatterDate s
      ⟨"---" :: (pre ++ ttl :: post) ++ "---" :: body, tr⟩ =
      .ok ⟨"---" :: (pre ++ ttl :: ("date: " ++ s) :: post) ++ "---" :: body,
        tr⟩ := by
  have hall : ∀ l ∈ "---" :: (pre ++ ttl :: post) ++ "---" :: body,
      startswith l "date:" = false := by
    intro l hl
    rcases List.mem_cons.mp hl with rfl | hl'
    · decide
    rcases List.mem_append.mp hl' with hl2 | hl2
    · exact hnodate l hl2
    rcases List.mem_cons.mp hl2 with rfl | hl3
    · decide
    · exact hbody l hl3
  have hnone := reSubnDate_none ("date: " ++ s) _ tr hall
  have hins := insertDateField_eq s (pre ++ ttl :: post) body tr hclose
  have hrep := replaceFirstDate_none ("date: " ++ s) _ hnodate
  have hti := findTitleIdx_append pre ttl post hpre httl
  have htake : (pre ++ ttl :: post).take (pre.length + 1) = pre ++ [ttl] := by
    rw [List.take_append 1]
    rfl
  have hdrop : (pre ++ ttl :: post).drop (pre.length + 1) = post := by
    rw [List.drop_append 1]
    rfl
  unfold updateFrontmatterDate
  simp only [hnone, hins, hrep, hti, htake, hdrop]
  simp

/-- C3 (witness): the amended theorem applied to the concrete text `---` /
`layout: post` / `title: x` / `tags: a` / `---` / `body`. -/
theorem c3_witness :
    ((∀ l ∈ ["layout: post"] ++ "title: x" :: ["tags: a"],
        startswith l "date:" = false) ∧
     (∀ l ∈ ["body"], startswith l "date:" = false) ∧
     (∀ l ∈ ["layout: post"] ++ "title: x" :: ["tags: a"],
        pyStrip l ≠ "---") ∧
     (∀ l ∈ ["layout: post"], startswith l "title:" = false) ∧
     startswith "title: x" "title:" = true) ∧
    updateFrontmatterDate "2024-03-01 09:00 +0000"
      ⟨"---" :: (["layout: post"] ++ "title: x" :: ["tags: a"]) ++
        "---" :: ["body"], true⟩ =
      .ok ⟨"---" :: (["layout: post"] ++ "title: x" ::
          ("date: " ++ "2024-03-01 09:00 +0000") :: ["tags: a"]) ++
        "---" :: ["body"], true⟩ :=
  ⟨⟨by decide, by decide, by decide, by decide, by decide⟩,
    c3_amended "2024-03-01 09:00 +0000" ["layout: post"] "title: x"
      ["tags: a"] ["body"] true (by decide) (by decide) (by decide)
      (by decide) (by decide)⟩

/-! ### Claim C2 -/

/-- C2 (counterexample): for the stored text consisting of the single line
`date: x` — a text with no `---` delimiter line at all — the date rewrite
does not fail: the whole-text regex matches the `date:` line, the call
succeeds and the file on storage is changed. -/
theorem c2_counterexample :
    isOkUnit (updateFrontmatterDateFS "note.md" "2024-03-01 09:00 +0000"
      (fun q => if q = "note.md" then some ⟨["date: x"], true⟩ else none)).2
      = true ∧
    (updateFrontmatterDateFS "note.md" "2024-03-01 09:00 +0000"
      (fun q => if q = "note.md" then some ⟨["date: x"], true⟩ else none)).1
      "note.md" ≠ some ⟨["date: x"], true⟩ := by
  decide

/-- C2 (amended): for every stored text with no `---` delimiter line (no
line that is `---` up to surrounding whitespace) and no line beginning with
`date:`, the rewrite fails with a structural error and the file content on
storage is unchanged after the failed call. -/
theorem c2_amended (p s : String) (fs : FS) (t : Text)
    (ht : fs p = some t)
    (hdelim : ∀ l ∈ t.lines, pyStrip l ≠ "---")
    (hdate : ∀ l ∈ t.lines, startswith l "date:" = false) :
    (updateFrontmatterDateFS p s fs).1 = fs ∧
      ∃ e, (updateFrontmatterDateFS p s fs).2 = .error e := by
  have hnone := reSubnDate_none ("date: " ++ s) t.lines t.trailingNewline hdate
  have herr : ∃ e, updateFrontmatterDate s t = .error e := by
    unfold updateFrontmatterDate
    simp only [hnone]
    unfold insertDateField
    cases hls : t.lines with
    | nil =>
      simp only [hls]
      exact ⟨_, rfl⟩
    | cons l0 rest =>
      have h0 : pyStrip l0 ≠ "---" := hdelim l0 (by simp [hls])
      simp only [hls]
      exact ⟨"does not start with front matter", by simp [h0]⟩
  obtain ⟨e, he⟩ := herr
  unfold updateFrontmatterDateFS
  rw [ht]
  refine ⟨by simp [he], e, by simp [he]⟩

/-- C2 (witness): the amended theorem applied to a filesystem holding
`note.md` with lines `title: x` / `body`, which has no delimiter and no
`date:` line. -/
theorem c2_witness :
    ((fun q => if q = "note.md" then some (Text.mk ["title: x", "body"] true)
        else none) "note.md" = some (Text.mk ["title: x", "body"] true) ∧
     (∀ l ∈ (Text.mk ["title: x", "body"] true).lines, pyStrip l ≠ "---") ∧
     (∀ l ∈ (Text.mk ["title: x", "body"] true).lines,
        startswith l "date:" = false)) ∧
    ((updateFrontmatterDateFS "note.md" "2024-03-01 09:00 +0000"
        (fun q => if q = "note.md" then some (Text.mk ["title: x", "body"] true)
          else none)).1 =
      (fun q => if q = "note.md" then some (Text.mk ["title: x", "body"] true)
        else none) ∧
     ∃ e, (updateFrontmatterDateFS "note.md" "2024-03-01 09:00 +0000"
        (fun q => if q = "note.md" then some (Text.mk ["title: x", "body"] true)
          else none)).2 = .error e) :=
  ⟨⟨by decide, by decide, by decide⟩,
    c2_amended "note.md" "2024-03-01 09:00 +0000"
      (fun q => if q = "note.md" then some (Text.mk ["title: x", "body"] true)
        else none)
      (Text.mk ["title: x", "body"] true) (by decide) (by decide) (by decide)⟩

/-! ### Claim C8 -/

/-- C8 (confirmed): the date rewrite is idempotent — whenever rewriting a
text with the formatted timestamp of `dt` succeeds, rewriting the result
again with the same timestamp returns it unchanged. -/
theorem c8_idempotent (dt : PyDateTime) (t u : Text)
    (h : updateFrontmatterDate (fmtDateTimeTz dt) t = .ok u) :
    updateFrontmatterDate (fmtDateTimeTz dt) u = .ok u := by
  have hws : allWS (dateTail ("date: " ++ fmtDateTimeTz dt)) = false :=
    allWS_dateTail_fmt dt
  have hd : startswith ("date: " ++ fmtDateTimeTz dt) "date:" = true :=
    startswith_date_repl (fmtDateTimeTz dt)
  have hdecomp : ∃ pre suf, (∀ x ∈ pre, startswith x "date:" = false) ∧
      u.lines = pre ++ ("date: " ++ fmtDateTimeTz dt) :: suf := by
    unfold updateFrontmatterDate at h
    cases hr : reSubnDate ("date: " ++ fmtDateTimeTz dt) t.lines
        t.trailingNewline with
    | some q =>
      obtain ⟨ls', tr'⟩ := q
      simp only [hr, Except.ok.injEq] at h
      obtain ⟨pre, suf, hpre, hshape⟩ := reSubnDate_some_shape _ _ _ _ _ hr
      exact ⟨pre, suf, hpre, by rw [← h]; exact hshape⟩
    | none =>
      simp only [hr] at h
      have hfree := nodate_of_reSubnDate_none _ _ _ hr
      unfold insertDateField at h
      cases hls : t.lines with
      | nil => simp [hls] at h
      | cons l0 rest =>
        simp only [hls] at h
        rw [hls] at hfree
        by_cases h0 : pyStrip l0 = "---"
        · simp only [h0, if_true] at h
          cases hfd : findDelim rest with
          | none => simp [hfd] at h
          | some c =>
            simp only [hfd] at h
            have hfmfree : ∀ l ∈ rest.take c, startswith l "date:" = false :=
              fun l hl => hfree l
                (List.mem_cons_of_mem _ (List.take_subset _ _ hl))
            rw [replaceFirstDate_none _ _ hfmfree] at h
            cases hti : findTitleIdx (rest.take c) with
            | some ti =>
              simp only [hti, Except.ok.injEq] at h
              refine ⟨"---" :: (rest.take c).take (ti + 1),
                (rest.take c).drop (ti + 1) ++ "---" :: rest.drop (c + 1),
                ?_, ?_⟩
              · intro x hx
                rcases List.mem_cons.mp hx with rfl | hx'
                · decide
                · exact hfree x (List.mem_cons_of_mem _
                    (List.take_subset _ _ (List.take_subset _ _ hx')))
              · rw [← h]
                simp
            | none =>
              simp only [hti, Except.ok.injEq] at h
              refine ⟨["---"], rest.take c ++ "---" :: rest.drop (c + 1),
                ?_, ?_⟩
              · intro x hx
                rcases List.mem_cons.mp hx with rfl | hx'
                · decide
                · simp at hx'
              · rw [← h]
                simp
        · simp [h0] at h
  obtain ⟨ulines, utr⟩ := u
  obtain ⟨pre, suf, hpre, hu⟩ := hdecomp
  simp only at hu
  subst hu
  have h2 : reSubnDate ("date: " ++ fmtDateTimeTz dt)
      (pre ++ ("date: " ++ fmtDateTimeTz dt) :: suf) utr =
      some (pre ++ ("date: " ++ fmtDateTimeTz dt) :: suf, utr) := by
    rw [reSubnDate_skip _ _ _ _ hpre, reSubnDate_hit _ _ _ _ hd hws]
    rfl
  unfold updateFrontmatterDate
  simp only [h2]

/-! ### Claim C5 -/

/-- C5 (counterexample): with a file already present at the destination
`_posts/2024-01-02-a.md`, promoting the draft `_drafts/a.md` on
2024-01-02 10:00 +0000 does not fail with a filesystem error: it succeeds,
and the existing destination file is silently overwritten (POSIX `rename`
replaces an existing destination). -/
theorem c5_counterexample :
    isOkPath (promoteDraft ⟨2024, 1, 2, 10, 0, 0⟩ "a" true
      (fun q => if q = "_drafts/a.md" then
          some ⟨["---", "title: \"A\"", "date: old", "---", "", "body"], true⟩
        else if q = "_posts/2024-01-02-a.md" then some ⟨["existing"], true⟩
        else none)).2 = true ∧
    (promoteDraft ⟨2024, 1, 2, 10, 0, 0⟩ "a" true
      (fun q => if q = "_drafts/a.md" then
          some ⟨["---", "title: \"A\"", "date: old", "---", "", "body"], true⟩
        else if q = "_posts/2024-01-02-a.md" then some ⟨["existing"], true⟩
        else none)).1 "_posts/2024-01-02-a.md" ≠ some ⟨["existing"], true⟩ := by
  decide

/-- C5 (amended): promotion relocates the draft by a rename, not a copy:
after a permitted rename the source path no longer exists and the
destination holds the updated draft text; a file already present at the
destination is silently replaced (POSIX rename semantics) rather than
causing an error. -/
theorem c5_amended (now : PyDateTime) (slug : String) (fs : FS) (t u : Text)
    (ht : fs ("_drafts/" ++ slug ++ ".md") = some t)
    (hu : updateFrontmatterDate (fmtDateTimeTz now) t = .ok u) :
    ∃ fs2, promoteDraft now slug true fs =
        (fs2, .ok ("_posts/" ++ fmtDate now ++ "-" ++ slug ++ ".md")) ∧
      fs2 ("_drafts/" ++ slug ++ ".md") = none ∧
      fs2 ("_posts/" ++ fmtDate now ++ "-" ++ slug ++ ".md") = some u := by
  have hne := draftPath_ne_newPath slug (fmtDate now)
  have h1 : fsWrite fs ("_drafts/" ++ slug ++ ".md") u
      ("_drafts/" ++ slug ++ ".md") = some u := by simp [fsWrite]
  unfold promoteDraft updateFrontmatterDateFS fsRename
  simp only [ht, hu, h1, if_true]
  refine ⟨_, rfl, ?_, ?_⟩
  · rw [if_neg hne, if_pos rfl]
  · rw [if_pos rfl]

/-- C5 (witness): the amended theorem applied to a filesystem holding the
draft `_drafts/a.md`, promoted at 2024-01-02 10:00 +0000. -/
theorem c5_witness :
    ((fun q => if q = "_drafts/a.md" then
        some (Text.mk ["---", "date: old", "---", "b"] true) else none)
      ("_drafts/" ++ "a" ++ ".md")
        = some (Text.mk ["---", "date: old", "---", "b"] true) ∧
     updateFrontmatterDate (fmtDateTimeTz ⟨2024, 1, 2, 10, 0, 0⟩)
        (Text.mk ["---", "date: old", "---", "b"] true) =
        .ok (Text.mk ["---", "date: 2024-01-02 10:00 +0000", "---", "b"]
          true)) ∧
    (∃ fs2, promoteDraft ⟨2024, 1, 2, 10, 0, 0⟩ "a" true
        (fun q => if q = "_drafts/a.md" then
          some (Text.mk ["---", "date: old", "---", "b"] true) else none) =
        (fs2, .ok ("_posts/" ++ fmtDate ⟨2024, 1, 2, 10, 0, 0⟩ ++ "-" ++ "a"
          ++ ".md")) ∧
      fs2 ("_drafts/" ++ "a" ++ ".md") = none ∧
      fs2 ("_posts/" ++ fmtDate ⟨2024, 1, 2, 10, 0, 0⟩ ++ "-" ++ "a" ++ ".md")
        = some (Text.mk ["---", "date: 2024-01-02 10:00 +0000", "---", "b"]
          true)) :=
  ⟨⟨by decide, by rfl⟩,
    c5_amended ⟨2024, 1, 2, 10, 0, 0⟩ "a"
      (fun q => if q = "_drafts/a.md" then
        some (Text.mk ["---", "date: old", "---", "b"] true) else none)
      (Text.mk ["---", "date: old", "---", "b"] true)
      (Text.mk ["---", "date: 2024-01-02 10:00 +0000", "---", "b"] true)
      (by decide) (by rfl)⟩

/-! ### Claim C9 -/

/-- C9 (confirmed): promotion is not atomic across its two steps — it first
rewrites the `date:` field in place and only then renames.  When the rename
is refused, the state is exactly the original filesystem with the draft
rewritten at its original path: the draft still sits at its drafts path, it
already carries the new `date:` line, and the destination path is
untouched. -/
theorem c9_nonatomic (now : PyDateTime) (slug : String) (fs : FS) (t u : Text)
    (ht : fs ("_drafts/" ++ slug ++ ".md") = some t)
    (hu : updateFrontmatterDate (fmtDateTimeTz now) t = .ok u) :
    promoteDraft now slug false fs =
      (fsWrite fs ("_drafts/" ++ slug ++ ".md") u,
        .error "rename not permitted") ∧
    fsWrite fs ("_drafts/" ++ slug ++ ".md") u ("_drafts/" ++ slug ++ ".md")
      = some u ∧
    ("date: " ++ fmtDateTimeTz now) ∈ u.lines ∧
    fsWrite fs ("_drafts/" ++ slug ++ ".md") u
      ("_posts/" ++ fmtDate now ++ "-" ++ slug ++ ".md")
      = fs ("_posts/" ++ fmtDate now ++ "-" ++ slug ++ ".md") := by
  have hne := draftPath_ne_newPath slug (fmtDate now)
  refine ⟨?_, by simp [fsWrite], dateLine_mem_update _ _ _ hu, ?_⟩
  · unfold promoteDraft updateFrontmatterDateFS
    simp only [ht, hu]
    rfl
  · unfold fsWrite
    rw [if_neg (Ne.symm hne)]

/-- C9 (witness): non-atomicity at a concrete filesystem holding
`_drafts/a.md`, with the rename refused at 2024-01-02 10:00 +0000. -/
theorem c9_witness :
    ((fun q => if q = "_drafts/a.md" then
        some (Text.mk ["---", "date: old", "---"] true) else none)
      ("_drafts/" ++ "a" ++ ".md")
        = some (Text.mk ["---", "date: old", "---"] true) ∧
     updateFrontmatterDate (fmtDateTimeTz ⟨2024, 1, 2, 10, 0, 0⟩)
        (Text.mk ["---", "date: old", "---"] true) =
        .ok (Text.mk ["---", "date: 2024-01-02 10:00 +0000", "---"] true)) ∧
    (promoteDraft ⟨2024, 1, 2, 10, 0, 0⟩ "a" false
        (fun q => if q = "_drafts/a.md" then
          some (Text.mk ["---", "date: old", "---"] true) else none) =
      (fsWrite (fun q => if q = "_drafts/a.md" then
          some (Text.mk ["---", "date: old", "---"] true) else none)
        ("_drafts/" ++ "a" ++ ".md")
        (Text.mk ["---", "date: 2024-01-02 10:00 +0000", "---"] true),
        .error "rename not permitted") ∧
     fsWrite (fun q => if q = "_drafts/a.md" then
          some (Text.mk ["---", "date: old", "---"] true) else none)
        ("_drafts/" ++ "a" ++ ".md")
        (Text.mk ["---", "date: 2024-01-02 10:00 +0000", "---"] true)
        ("_drafts/" ++ "a" ++ ".md")
        = some (Text.mk ["---", "date: 2024-01-02 10:00 +0000", "---"] true) ∧
     ("date: " ++ fmtDateTimeTz ⟨2024, 1, 2, 10, 0, 0⟩) ∈
        (Text.mk ["---", "date: 2024-01-02 10:00 +0000", "---"] true).lines ∧
     fsWrite (fun q => if q = "_drafts/a.md" then
          some (Text.mk ["---", "date: old", "---"] true) else none)
        ("_drafts/" ++ "a" ++ ".md")
        (Text.mk ["---", "date: 2024-01-02 10:00 +0000", "---"] true)
        ("_posts/" ++ fmtDate ⟨2024, 1, 2, 10, 0, 0⟩ ++ "-" ++ "a" ++ ".md")
        = (fun q => if q = "_drafts/a.md" then
          some (Text.mk ["---", "date: old", "---"] true) else none)
          ("_posts/" ++ fmtDate ⟨2024, 1, 2, 10, 0, 0⟩ ++ "-" ++ "a"
            ++ ".md")) :=
  ⟨⟨by decide, by rfl⟩,
    c9_nonatomic ⟨2024, 1, 2, 10, 0, 0⟩ "a"
      (fun q => if q = "_drafts/a.md" then
        some (Text.mk ["---", "date: old", "---"] true) else none)
      (Text.mk ["---", "date: old", "---"] true)
      (Text.mk ["---", "date: 2024-01-02 10:00 +0000", "---"] true)
      (by decide) (by rfl)⟩

/-- C8 (witness): idempotence at the concrete text `---` / `date: old` /
`---` / (blank) stamped with 2024-01-02 10:00 UTC. -/
theorem c8_witness :
    updateFrontmatterDate (fmtDateTimeTz ⟨2024, 1, 2, 10, 0, 0⟩)
      ⟨["---", "date: old", "---", ""], true⟩ =
      .ok ⟨["---", "date: 2024-01-02 10:00 +0000", "---", ""], true⟩ ∧
    updateFrontmatterDate (fmtDateTimeTz ⟨2024, 1, 2, 10, 0, 0⟩)
      ⟨["---", "date: 2024-01-02 10:00 +0000", "---", ""], true⟩ =
      .ok ⟨["---", "date: 2024-01-02 10:00 +0000", "---", ""], true⟩ :=
  ⟨by rfl,
    c8_idempotent ⟨2024, 1, 2, 10, 0, 0⟩
      ⟨["---", "date: old", "---", ""], true⟩
      ⟨["---", "date: 2024-01-02 10:00 +0000", "---", ""], true⟩ (by rfl)⟩

/-! ### Claim C6 -/

/-- C6 (counterexample): for the non-empty title `A` created at
2024-01-02 10:00 with local offset +0000, the stub written by `new_post.py`
contains no line `date: <timestamp with timezone offset>`: its date line is
`date: 2024-01-02 10:00`, with no offset. -/
theorem c6_counterexample :
    ("date: " ++ fmtDateTimeTz ⟨2024, 1, 2, 10, 0, 0⟩) ∉
      (newPostText "A" ⟨2024, 1, 2, 10, 0, 0⟩).lines := by
  decide

/-- C6 (amended): for every non-empty title, the new-post creator writes a
file whose content is a front-matter block containing the quoted title and a
`date:` field whose value is the current local timestamp in
`YYYY-MM-DD HH:MM` format with no timezone offset (a strictly shorter string
than the offset-bearing form), followed by a blank line and no body. -/
theorem c6_amended (title : String) (now : PyDateTime) (h : title ≠ "") :
    (newPostText title now).lines =
      ["---", "title: \"" ++ title ++ "\"", "date: " ++ fmtDateTimeNoTz now,
       "---", ""] ∧
    (newPostText title now).trailingNewline = true ∧
    "date: " ++ fmtDateTimeNoTz now ≠ "date: " ++ fmtDateTimeTz now := by
  refine ⟨rfl, rfl, ?_⟩
  intro he
  have hlen := congrArg String.length he
  rw [String.length_append, String.length_append] at hlen
  have h2 : (fmtDateTimeNoTz now).length = (fmtDateTimeTz now).length := by
    omega
  have h3 : 1 ≤ (fmtOffset now.tzMin).length := by
    unfold fmtOffset
    by_cases hm : now.tzMin < 0
    · rw [if_pos hm, String.length_append, String.length_append]
      have hone : ("-" : String).length = 1 := rfl
      omega
    · rw [if_neg hm, String.length_append, String.length_append]
      have hone : ("+" : String).length = 1 := rfl
      omega
  unfold fmtDateTimeTz at h2
  rw [String.length_append, String.length_append] at h2
  have hsp : (" " : String).length = 1 := rfl
  omega

/-- C6 (witness): the amended theorem applied to title `A` at
2024-01-02 10:00 with local offset +0000. -/
theorem c6_witness :
    ("A" ≠ "") ∧
    ((newPostText "A" ⟨2024, 1, 2, 10, 0, 0⟩).lines =
      ["---", "title: \"" ++ "A" ++ "\"",
       "date: " ++ fmtDateTimeNoTz ⟨2024, 1, 2, 10, 0, 0⟩, "---", ""] ∧
     (newPostText "A" ⟨2024, 1, 2, 10, 0, 0⟩).trailingNewline = true ∧
     "date: " ++ fmtDateTimeNoTz ⟨2024, 1, 2, 10, 0, 0⟩ ≠
       "date: " ++ fmtDateTimeTz ⟨2024, 1, 2, 10, 0, 0⟩) :=
  ⟨by decide, c6_amended "A" ⟨2024, 1, 2, 10, 0, 0⟩ (by decide)⟩

/-! ### Claim C7 -/

/-- C7 (counterexample): the value `choose_draft` returns when the user
cancels (blank line at the numeric prompt, drafts available) is the same
value, not a distinct one, as the value returned when the draft list is
empty: both are Python `None` (modelled by `SelResult.cancel`). -/
theorem c7_counterexample :
    (chooseDraft ["_drafts/a.md"] ⟨false, none, [""]⟩).result =
      (chooseDraft [] ⟨false, none, []⟩).result ∧
    (chooseDraft ["_drafts/a.md"] ⟨false, none, [""]⟩).result = .cancel := by
  decide

/-- C7 (amended): draft selection returns one shared no-selection sentinel
(Python `None`) both on user cancellation and on an empty draft list — the
two outcomes are not distinguished; with an empty draft list it returns that
sentinel immediately, without invoking the external fuzzy-finder and without
printing the numeric prompt. -/
theorem c7_amended :
    (∀ env : ChooseEnv,
      chooseDraft [] env = ⟨.cancel, false, false⟩) ∧
    (chooseDraft ["_drafts/a.md"] ⟨false, none, [""]⟩).result = .cancel :=
  ⟨fun _ => rfl, by decide⟩

/-! ### Claim C10 -/

/-- C10 (counterexample): the selection can end in an uncaught `ValueError`
(modelled by `SelResult.err`, distinct from the cancellation sentinel),
returning neither the sentinel nor an element of the list, on two paths:
the external tool exits successfully printing a line not among the
candidates (`list.index` raises), or the numeric prompt receives `²` —
a character for which `str.isdigit` is true but `int()` raises. -/
theorem c10_counterexample :
    (chooseDraft ["_drafts/a.md"] ⟨true, some (0, "zzz"), []⟩).result = .err ∧
    (chooseDraft ["_drafts/a.md"] ⟨false, none, ["²"]⟩).result = .err ∧
    SelResult.err ≠ SelResult.cancel := by
  decide

/-- C10 (amended): for every non-empty draft list and every environment in
which (i) the external tool, when it exits successfully, prints a blank line
or one of the candidate lines (its contract), and (ii) every numeric-prompt
input whose stripped form passes `str.isdigit` consists of decimal digits
only (so `int()` accepts it — compatibility digits such as `²` pass
`isdigit` but make `int()` raise an uncaught `ValueError`), the selection
returns either the cancellation sentinel or an element of the given draft
list — every computed index stays in bounds. -/
theorem c10_amended (ds : List String) (env : ChooseEnv)
    (hne : ds ≠ [])
    (hfzf : ∀ rc out, env.fzfOutcome = some (rc, out) → rc = 0 →
      pyStrip out = "" ∨ pyStrip out ∈ ds)
    (hstdin : ∀ c ∈ env.stdin, pyIsDigit (pyStrip c) = true →
      (pyStrip c).data.all Char.isDigit = true) :
    (chooseDraft ds env).result = .cancel ∨
      ∃ d ∈ ds, (chooseDraft ds env).result = .chosen d := by
  have hprompt : (chooseDraft ds env).result = promptLoop ds env.stdin →
      (chooseDraft ds env).result = .cancel ∨
        ∃ d ∈ ds, (chooseDraft ds env).result = .chosen d := by
    intro hr
    rw [hr]
    exact promptLoop_cases ds env.stdin hstdin
  by_cases hp : env.fzfPresent = true
  · cases ho : env.fzfOutcome with
    | none =>
      exact hprompt (by simp [chooseDraft, hne, hp, ho])
    | some q =>
      obtain ⟨rc, out⟩ := q
      by_cases hrc : rc = 0
      · rcases hfzf rc out ho hrc with hempty | hmem
        · left
          simp [chooseDraft, hne, hp, ho, hrc, hempty]
        · by_cases hse : pyStrip out = ""
          · left
            simp [chooseDraft, hne, hp, ho, hrc, hse]
          · obtain ⟨i, hi⟩ := indexOfFirst_of_mem _ _ hmem
            obtain ⟨hlt, hgd⟩ := indexOfFirst_getD (pyStrip out) ds i "" hi
            right
            refine ⟨ds.getD i "", hgd ▸ hmem, ?_⟩
            simp [chooseDraft, hne, hp, ho, hrc, hse, hi]
      · exact hprompt (by simp [chooseDraft, hne, hp, ho, hrc])
  · exact hprompt (by simp [chooseDraft, hne, hp])

/-- C10 (witness): the amended theorem applied to one draft with the
external tool returning exactly that draft's line and no prompt input. -/
theorem c10_witness :
    ((["_drafts/a.md"] : List String) ≠ [] ∧
     (∀ rc out, (ChooseEnv.mk true (some (0, "_drafts/a.md")) []).fzfOutcome
        = some (rc, out) → rc = 0 →
        pyStrip out = "" ∨ pyStrip out ∈ ["_drafts/a.md"]) ∧
     (∀ c ∈ (ChooseEnv.mk true (some (0, "_drafts/a.md")) []).stdin,
        pyIsDigit (pyStrip c) = true →
        (pyStrip c).data.all Char.isDigit = true)) ∧
    ((chooseDraft ["_drafts/a.md"]
        (ChooseEnv.mk true (some (0, "_drafts/a.md")) [])).result = .cancel ∨
      ∃ d ∈ ["_drafts/a.md"],
        (chooseDraft ["_drafts/a.md"]
          (ChooseEnv.mk true (some (0, "_drafts/a.md")) [])).result
          = .chosen d) :=
  ⟨⟨by decide,
    by
      intro rc out h _
      have h' : some ((0 : Int), "_drafts/a.md") = some (rc, out) := h
      rw [Option.some.injEq, Prod.mk.injEq] at h'
      rw [← h'.2]
      right
      decide,
    by
      intro c hc
      simp at hc⟩,
    c10_amended ["_drafts/a.md"] (ChooseEnv.mk true (some (0, "_drafts/a.md")) [])
      (by decide)
      (by
        intro rc out h _
        have h' : some ((0 : Int), "_drafts/a.md") = some (rc, out) := h
        rw [Option.some.injEq, Prod.mk.injEq] at h'
        rw [← h'.2]
        right
        decide)
      (by
        intro c hc
        simp at hc)⟩

end Blog
